import Mathlib

/-!
# CertiFlow — verification of the batch certificate/email engine

Shallow embedding of the CertiFlow server core (TypeScript) in Lean 4:

* `renderEmailTemplate`, placeholder substitution (`src/server/src/services/email.service.ts`)
* `generateFilename`, `sanitizeFilename` (`job.service.ts`, `csv.service.ts`)
* CSV parsing/validation (`csv.service.ts`)
* the batch job engine: certificate loop, email loop, retry, cancel
  (`job.service.ts`, `job.routes.ts`)
* hex-colour parsing and the certificate draw loop (`pdf.service.ts`)

JavaScript strings are modelled as `List Char` (wrapped in `String`),
JavaScript numbers holding counters as `Int`, coordinates/colour components
as `ℚ`.  External effects (PDF rendering, file writes, SMTP sends) are
modelled by an oracle `Nat → Except String Unit` giving each recipient's
outcome; the persistent store is threaded as explicit state.

Recursions over strings use an explicit fuel argument equal to the subject
length; every step consumes at least one character of the subject, so the
fuel never runs out and the definitions compute by structural recursion
(which keeps them kernel-reducible for `decide`).
-/

namespace CertiFlow

/-- The JavaScript regex class `\s` restricted to ASCII, as used by
`trim`, `\s*` in placeholder regexes and `replace(/\s+/g, …)`. -/
def isSpaceChar (c : Char) : Bool :=
  c = ' ' || c = '\t' || c = '\n' || c = '\r' || c = '\x0b' || c = '\x0c'

/-- Case-insensitive character comparison (regex `i` flag, ASCII). -/
def charIEq (a b : Char) : Bool := a.toLower = b.toLower

/-- Match `pat` case-insensitively at the head of `s`; return the rest on success. -/
def matchICase : List Char → List Char → Option (List Char)
  | [], s => some s
  | _ :: _, [] => none
  | p :: ps, c :: cs => if charIEq p c then matchICase ps cs else none

/-- Match the regex fragment `\{\{\s*KEY\s*\}\}` (case-insensitive) at the
head of `s`; on success return the remainder of `s` after the token.
This is the pattern built by `new RegExp` in `renderEmailTemplate` and
`generateFilename`. -/
def matchToken (key : List Char) (s : List Char) : Option (List Char) :=
  match s with
  | '{' :: '{' :: rest =>
    match matchICase key (rest.dropWhile isSpaceChar) with
    | none => none
    | some r2 =>
      match r2.dropWhile isSpaceChar with
      | '}' :: '}' :: r4 => some r4
      | _ => none
  | _ => none

/-- ECMAScript `GetSubstitution` for a string replacement against a regex
with no capture groups: in the replacement text, `$$` yields `$`, `$&` the
matched substring, `$` followed by a backquote (`\x60`) the part of the
subject before the match, `$` followed by a quote (`\x27`) the part after
the match; every other `$` sequence is literal (in particular `$1`…`$99`
and `$<name>`, since the token regexes of this code base have no capture
groups). -/
def expandDollarAux (matched before after : List Char) : Nat → List Char → List Char
  | 0, l => l
  | _ + 1, [] => []
  | fuel + 1, c :: rest =>
    if c = '$' then
      match rest with
      | '$' :: rest2 => '$' :: expandDollarAux matched before after fuel rest2
      | '&' :: rest2 => matched ++ expandDollarAux matched before after fuel rest2
      | '\x60' :: rest2 => before ++ expandDollarAux matched before after fuel rest2
      | '\x27' :: rest2 => after ++ expandDollarAux matched before after fuel rest2
      | _ => '$' :: expandDollarAux matched before after fuel rest
    else c :: expandDollarAux matched before after fuel rest

/-- `GetSubstitution` on a whole replacement text (`fuel` is its length;
each step consumes at least one character). -/
def expandDollar (matched before after repl : List Char) : List Char :=
  expandDollarAux matched before after repl.length repl

/-- One global-replace pass of `subject.replace(/\{\{\s*key\s*\}\}/gi, val)`:
left-to-right scan, non-overlapping matches; each match's replacement text
is the value with its `$`-escapes expanded (`expandDollar`) against that
match, and is not rescanned.  `pre` is the part of the original subject
before the current position (needed for the backquote escape); `fuel` is
initialised to the subject length (each step consumes ≥ 1 char). -/
def replaceTokenAux (key val : List Char) : List Char → Nat → List Char → List Char
  | _, 0, s => s
  | _, _ + 1, [] => []
  | pre, fuel + 1, c :: cs =>
    match matchToken key (c :: cs) with
    | some rest =>
      let matched := (c :: cs).take ((c :: cs).length - rest.length)
      expandDollar matched pre rest val ++ replaceTokenAux key val (pre ++ matched) fuel rest
    | none => c :: replaceTokenAux key val (pre ++ [c]) fuel cs

/-- `subject.replace(/\{\{\s*key\s*\}\}/gi, val)`. -/
def replaceTokenCI (key val s : List Char) : List Char :=
  replaceTokenAux key val [] s.length s

/-- `renderEmailTemplate(template, data)` from `email.service.ts`:
for each `[key, value]` of `Object.entries(data)` (in insertion order) run
`rendered = rendered.replace(new RegExp("\\{\\{\\s*" + key + "\\s*\\}\\}", "gi"), value || "")`.
For strings `value || ""` is `value` itself.  (Regex metacharacters inside
keys are not modelled; no key of this code base contains any.) -/
def renderEmailTemplate (template : String) (data : List (String × String)) : String :=
  ⟨data.foldl (fun rendered kv => replaceTokenCI kv.1.data kv.2.data rendered) template.data⟩

/-- Match the regex `\{\{sn\}\}` (case-insensitive, no inner whitespace allowed)
at the head of the list; on success return the remainder. -/
def matchSn : List Char → Option (List Char)
  | '{' :: '{' :: c1 :: c2 :: '}' :: '}' :: rest =>
    if charIEq c1 's' && charIEq c2 'n' then some rest else none
  | _ => none

/-- One global-replace pass of `pattern.replace(/\{\{sn\}\}/gi, val)`.
The only replacement ever passed here is `String(index + 1).padStart(3, "0")`
— a decimal numeral, which contains no `$` — so ECMAScript `$`-escape
expansion cannot fire and verbatim insertion is exact. -/
def replaceSnAux (val : List Char) : Nat → List Char → List Char
  | 0, s => s
  | _ + 1, [] => []
  | fuel + 1, c :: cs =>
    match matchSn (c :: cs) with
    | some rest => val ++ replaceSnAux val fuel rest
    | none => c :: replaceSnAux val fuel cs

/-- `String(index + 1).padStart(3, "0")`: pad the decimal representation on
the left with zeros up to (at least) width 3. -/
def serialNumber (index : Nat) : List Char :=
  let s := (Nat.repr (index + 1)).data
  List.replicate (3 - s.length) '0' ++ s

/-- The character class kept by `sanitizeFilename`'s first step
(`replace(/[^a-zA-Z0-9\s-_]/g, "")` keeps `[a-zA-Z0-9\s\-_]`). -/
def keepChar (c : Char) : Bool :=
  c.isAlphanum || isSpaceChar c || c = '-' || c = '_'

/-- `replace(/\s+/g, "_")`: each maximal run of whitespace becomes one `_`. -/
def collapseWsAux : Nat → List Char → List Char
  | 0, s => s
  | _ + 1, [] => []
  | fuel + 1, c :: cs =>
    if isSpaceChar c then '_' :: collapseWsAux fuel (cs.dropWhile isSpaceChar)
    else c :: collapseWsAux fuel cs

/-- `sanitizeFilename` from `csv.service.ts`: drop characters outside
`[a-zA-Z0-9\s\-_]`, turn whitespace runs into `_`, take the first 100 chars. -/
def sanitizeL (s : List Char) : List Char :=
  let kept := s.filter keepChar
  (collapseWsAux kept.length kept).take 100

/-- String-level `sanitizeFilename(name)`. -/
def sanitizeFilename (name : String) : String := ⟨sanitizeL name.data⟩

/-- ASCII model of JavaScript `toLowerCase()`. -/
def lowercaseL (s : List Char) : List Char := s.map Char.toLower

/-- `filename.toLowerCase().endsWith(".pdf")`. -/
def endsWithPdf (s : List Char) : Bool :=
  List.isSuffixOf (".pdf").data (lowercaseL s)

/-- Append `.pdf` unless the name already ends with it (case-insensitively);
the trailing step of `generateFilename`. -/
def ensurePdf (f : List Char) : List Char :=
  cond (endsWithPdf f) f (f ++ (".pdf").data)

/-- `generateFilename(pattern, data, index)` from `job.service.ts`:
replace `{{sn}}` by the zero-padded 1-based serial number, then for each
data entry replace `{{\s*key\s*}}` (case-insensitive) by the sanitized
value, then default the `.pdf` extension. -/
def generateFilename (pattern : String) (data : List (String × String)) (index : Nat) : String :=
  let f1 := replaceSnAux (serialNumber index) pattern.data.length pattern.data
  let f2 := data.foldl (fun acc kv => replaceTokenCI kv.1.data (sanitizeL kv.2.data) acc) f1
  ⟨ensurePdf f2⟩

/-- ASCII model of JavaScript `trim()`. -/
def trimL (s : List Char) : List Char :=
  ((s.dropWhile isSpaceChar).reverse.dropWhile isSpaceChar).reverse

/-- `key.trim()` on strings. -/
def trimS (s : String) : String := ⟨trimL s.data⟩

/-- `key.toLowerCase().trim()` on strings. -/
def lowerTrim (s : String) : String := ⟨trimL (lowercaseL s.data)⟩

/-- JavaScript object-property assignment `m[k] = v` on a record modelled as
an association list: overwrite in place if the key exists, else append
(preserving `Object.entries` insertion order). -/
def objInsert (m : List (String × String)) (k v : String) : List (String × String) :=
  if m.any (fun kv => kv.1 = k) then
    m.map (fun kv => if kv.1 = k then (k, v) else kv)
  else m ++ [(k, v)]

/-- `record[k]` where a missing property reads as the empty string
(JavaScript `undefined` is falsy, and the code only uses values through
falsy-chains `a || b || ""`). -/
def getField (record : List (String × String)) (k : String) : String :=
  (record.lookup k).getD ("")

/-- The `on_record` check of `parseCSV`:
`!record.email && !record.Email && !record.EMAIL` on the raw parsed record. -/
def rowMissingEmail (record : List (String × String)) : Bool :=
  getField record ("email") = ("") && getField record ("Email") = ("") &&
    getField record ("EMAIL") = ("")

/-- The normalisation loop of `parseCSV`: for each `[key, value]` of the raw
record set `normalizedRecord[key.toLowerCase().trim()] = value` and then
`normalizedRecord[key.trim()] = value`. -/
def normalizeRecord (record : List (String × String)) : List (String × String) :=
  record.foldl (fun m kv => objInsert (objInsert m (lowerTrim kv.1) kv.2) (trimS kv.1) kv.2) []

/-- Keep the first header per lowercased-trimmed name (the `seen` set in
`parseCSV`'s `end` handler). -/
def dedupByLowerAux (seen : List String) : List String → List String
  | [] => []
  | k :: ks =>
    if seen.contains (lowerTrim k) then dedupByLowerAux seen ks
    else k :: dedupByLowerAux (lowerTrim k :: seen) ks

/-- Result shape of `parseCSV` (`ParsedCSV` in `csv.service.ts`); an error is
a `(lines, message)` pair. -/
structure ParsedCSV where
  headers : List String
  rows : List (List (String × String))
  totalRows : Nat
  errors : List (Nat × String)
deriving DecidableEq

/-- `parseCSV` from `csv.service.ts`, modelled on the already-cell-split CSV
grid (the `csv-parse` library with `columns: true, trim: true` is external):
`headers` are the first row's header names, `cells` the data rows' values.
A record is the headers zipped with a row's cells; `on_record` pushes a
`Missing email field` error (at `lines` = row index + 2, header on line 1)
when the raw record has no non-empty `email`/`Email`/`EMAIL` property;
each record is normalised with lowercased and original keys, and the output
headers are the first record's keys deduplicated case-insensitively. -/
def parseCSVModel (headers : List String) (cells : List (List String)) : ParsedCSV :=
  let records := cells.map (fun row => headers.zip row)
  let errors := records.enum.filterMap (fun ir =>
    if rowMissingEmail ir.2 then some (ir.1 + 2, ("Missing email field")) else none)
  let normRows := records.map normalizeRecord
  let outHeaders :=
    match normRows with
    | [] => []
    | first :: _ => dedupByLowerAux [] (first.map (fun kv => kv.1))
  { headers := outHeaders, rows := normRows, totalRows := normRows.length, errors := errors }

/-- A character allowed in either side of the email regex: `[^\s@]`. -/
def emailChar (c : Char) : Bool := !(isSpaceChar c) && c ≠ '@'

/-- `isValidEmail` from `csv.service.ts`: the regex
`^[^\s@]+@[^\s@]+\.[^\s@]+$`, i.e. a non-empty `@`-free, space-free local
part, one `@`, and a non-empty `@`-free, space-free rest containing a dot
that is neither its first nor its last character. -/
def isValidEmailL (s : List Char) : Bool :=
  let beforeAt := s.takeWhile (fun c => c ≠ '@')
  match s.dropWhile (fun c => c ≠ '@') with
  | '@' :: afterAt =>
    !beforeAt.isEmpty && beforeAt.all emailChar &&
    !afterAt.isEmpty && afterAt.all emailChar &&
    ((afterAt.drop 1).dropLast).contains '.'
  | _ => false

/-- Result shape of `validateCSVForCertificates`. -/
structure CSVValidationResult where
  isValid : Bool
  errors : List String
  warnings : List String
deriving DecidableEq

/-- `h.toLowerCase().replace(/\s+/g, "")` applied to a header. -/
def headerKey (h : String) : String :=
  ⟨(lowercaseL h.data).filter (fun c => !(isSpaceChar c))⟩

/-- Substring containment, JavaScript `h.includes(needle)`. -/
def containsSub (needle : List Char) : List Char → Bool
  | [] => needle.isEmpty
  | c :: cs => List.isPrefixOf needle (c :: cs) || containsSub needle cs

/-- The fuzzy required-field test of `validateCSVForCertificates`. -/
def fuzzyHasField (headersLower : List String) (fieldLower : String) : Bool :=
  headersLower.any (fun h =>
    h = fieldLower || containsSub fieldLower.data h.data ||
    (fieldLower = ("name") &&
      (containsSub ("name").data h.data || h = ("fullname") || h = ("full_name"))))

/-- `row.email || row.Email || row.EMAIL || ""` on a normalised row. -/
def getEmailOfRow (row : List (String × String)) : String :=
  let v1 := getField row ("email")
  if v1 ≠ "" then v1 else
    let v2 := getField row ("Email")
    if v2 ≠ "" then v2 else getField row ("EMAIL")

/-- `validateCSVForCertificates(parsedCSV, requiredFields)` from
`csv.service.ts`: fail on zero rows; fail when a required field matches no
header fuzzily; count rows with empty and with syntactically invalid emails
into warnings; append every parse error as `Row N: message`;
`isValid` iff the error list is empty. -/
def validateCSVForCertificates (parsedCSV : ParsedCSV) (requiredFields : List String) :
    CSVValidationResult :=
  if parsedCSV.totalRows = 0 then
    { isValid := false, errors := [("CSV file is empty or has no data rows")], warnings := [] }
  else
    let headersLower := parsedCSV.headers.map headerKey
    let fieldErrors := requiredFields.filterMap (fun field =>
      if fuzzyHasField headersLower ⟨lowercaseL field.data⟩ then none
      else some (("Required field \"") ++ field ++ ("\" not found in CSV headers")))
    let emptyEmails := (parsedCSV.rows.filter (fun row => getEmailOfRow row == "")).length
    let invalidEmails := (parsedCSV.rows.filter (fun row =>
      getEmailOfRow row != "" && !(isValidEmailL (getEmailOfRow row).data))).length
    let warnings :=
      (if emptyEmails > 0 then
        [toString emptyEmails ++ (" row(s) have empty email addresses")] else []) ++
      (if invalidEmails > 0 then
        [toString invalidEmails ++ (" row(s) have invalid email addresses")] else [])
    let errors := fieldErrors ++
      parsedCSV.errors.map (fun e => ("Row ") ++ toString e.1 ++ (": ") ++ e.2)
    { isValid := errors.isEmpty, errors := errors, warnings := warnings }

/-- `Recipient.emailStatus` values (`pending`/`sent`/`failed` strings in the
Prisma schema). -/
inductive EmailStatus where
  | pending
  | sent
  | failed
deriving DecidableEq

/-- `BatchJob.status` values. -/
inductive JobStatus where
  | pending
  | processing
  | completed
  | failed
  | cancelled
deriving DecidableEq

/-- A `Recipient` row: per-recipient delivery state owned by one job.
`extraFields` is the parsed original CSV row (stored serialized in the DB);
timestamps are abstracted to `Nat`. -/
structure Recipient where
  email : String
  fullName : String
  extraFields : List (String × String)
  certificatePath : Option String
  emailStatus : EmailStatus
  errorMessage : Option String
  sentAt : Option Nat
deriving DecidableEq

/-- A `BatchJob` row.  JavaScript number counters are modelled as `Int`. -/
structure BatchJob where
  status : JobStatus
  totalCount : Int
  processedCount : Int
  successCount : Int
  failedCount : Int
  completedAt : Option Nat
  outputPath : Option String
deriving DecidableEq

/-- The persistent state a batch loop reads and writes: the job row plus its
recipients in stable creation order. -/
structure JobState where
  job : BatchJob
  recipients : List Recipient
deriving DecidableEq

/-- `BatchJobConfig` (certificate jobs). -/
structure BatchJobConfig where
  templateId : String
  namingPattern : String
  outputPath : String
deriving DecidableEq

/-- `EmailBatchConfig` (email jobs). -/
structure EmailBatchConfig where
  emailTemplateId : String
  smtpConfigId : String
  subject : String
  delayMs : Nat
deriving DecidableEq

/-- An `EmailTemplate` row (the fields the email loop reads). -/
structure EmailTemplate where
  subject : String
  htmlContent : String
deriving DecidableEq

/-- The per-recipient placeholder record built by both loops:
`{ name, full_name, email, ...extraFields }` (object spread: a colliding
extra key overwrites the value but keeps the original key position). -/
def recipientData (r : Recipient) : List (String × String) :=
  r.extraFields.foldl (fun m kv => objInsert m kv.1 kv.2)
    [(("name"), r.fullName), (("full_name"), r.fullName), (("email"), r.email)]

/-- The path the certificate loop records for recipient `r` at sequence
index `i`: `join(outputDir, generateFilename(pattern, data, i))`. -/
def certSuccessPath (config : BatchJobConfig) (r : Recipient) (i : Nat) : String :=
  config.outputPath ++ ("/") ++ generateFilename config.namingPattern (recipientData r) i

/-- One iteration body of the certificate loop for recipient `r` at index
`i`: on oracle success (render + file write) set `certificatePath`; on
failure record the error message (`certificatePath` untouched,
`errorMessage` not cleared on success — as in the source).  The `Bool` is
the success flag. -/
def certRecipResult (config : BatchJobConfig) (outcome : Except String Unit)
    (r : Recipient) (i : Nat) : Recipient × Bool :=
  match outcome with
  | Except.ok _ => ({ r with certificatePath := some (certSuccessPath config r i) }, true)
  | Except.error msg => ({ r with errorMessage := some msg }, false)

/-- Output of the certificate loop: updated recipients, the local
`processedCount`/`successCount`/`failedCount` counters, and `trace`, the
sequence of counter triples written to the job row (one write per
iteration). -/
structure CertLoopOut where
  recips : List Recipient
  processedCount : Int
  successCount : Int
  failedCount : Int
  trace : List (Int × Int × Int)
deriving DecidableEq

/-- The recipient loop of `processCertificateBatch`: strictly sequential,
each iteration processes one recipient, increments the counters, and
persists them.  No cancellation check occurs anywhere in the loop. -/
def certLoop (config : BatchJobConfig) (oracle : Nat → Except String Unit) :
    Nat → Int → Int → Int → List Recipient → CertLoopOut
  | _, p, s, f, [] =>
    { recips := [], processedCount := p, successCount := s, failedCount := f, trace := [] }
  | i, p, s, f, r :: rs =>
    let pr := certRecipResult config (oracle i) r i
    let p' := p + 1
    let s' := if pr.2 then s + 1 else s
    let f' := if pr.2 then f else f + 1
    let out := certLoop config oracle (i + 1) p' s' f' rs
    { recips := pr.1 :: out.recips, processedCount := out.processedCount,
      successCount := out.successCount, failedCount := out.failedCount,
      trace := (p', s', f') :: out.trace }

/-- The persisted job counters after a loop: the per-iteration
`prisma.batchJob.update` calls leave the last written triple in the row
(iterations that write nothing leave the previous values). -/
def applyTrace (job : BatchJob) (trace : List (Int × Int × Int)) : BatchJob :=
  match trace.getLast? with
  | some e => { job with processedCount := e.1, successCount := e.2.1, failedCount := e.2.2 }
  | none => job

/-- `processCertificateBatch` from `job.service.ts`: set status to
`processing`, run the loop over all loaded recipients, then mark the job
`failed` when the local `failedCount` equals `totalCount`, else `completed`,
and persist `completedAt` and `outputPath`.  The intermediate `processing`
status is overwritten by the final update; initial job status is never read. -/
def processCertificateBatchM (config : BatchJobConfig) (oracle : Nat → Except String Unit)
    (now : Nat) (st : JobState) : JobState × CertLoopOut :=
  let out := certLoop config oracle 0 0 0 0 st.recipients
  let jobC := applyTrace st.job out.trace
  let job2 := { jobC with
    status := if out.failedCount = st.job.totalCount then JobStatus.failed
              else JobStatus.completed,
    completedAt := some now,
    outputPath := some config.outputPath }
  ({ job := job2, recipients := out.recips }, out)

/-- One iteration body of the email loop for a not-yet-sent recipient: on
send success stamp `sent`/`sentAt`/clear `errorMessage`; on failure stamp
`failed` with the error text. -/
def emailRecipResult (outcome : Except String Unit) (now : Nat) (r : Recipient) :
    Recipient × Bool :=
  match outcome with
  | Except.ok _ =>
    ({ r with emailStatus := EmailStatus.sent, sentAt := some now, errorMessage := none }, true)
  | Except.error msg =>
    ({ r with emailStatus := EmailStatus.failed, errorMessage := some msg }, false)

/-- Output of the email loop; `attempted` records, for each recipient for
which `sendEmail` was invoked, its index together with the rendered subject
and html body. -/
structure EmailLoopOut where
  recips : List Recipient
  processedCount : Int
  successCount : Int
  failedCount : Int
  trace : List (Int × Int × Int)
  attempted : List (Nat × String × String)
deriving DecidableEq

/-- The recipient loop of `processEmailBatch`: a recipient whose
`emailStatus` is already `sent` is skipped (`continue`) — counted in the
local processed/success counters but with no render, no send, no recipient
update and no job-progress write; otherwise the templates are rendered with
the recipient's data and the send outcome is recorded.  No cancellation
check occurs anywhere in the loop. -/
def emailLoop (htmlTemplate subjectTemplate : String) (oracle : Nat → Except String Unit)
    (now : Nat) : Nat → Int → Int → Int → List Recipient → EmailLoopOut
  | _, p, s, f, [] =>
    { recips := [], processedCount := p, successCount := s, failedCount := f,
      trace := [], attempted := [] }
  | i, p, s, f, r :: rs =>
    if r.emailStatus = EmailStatus.sent then
      let out := emailLoop htmlTemplate subjectTemplate oracle now (i + 1) (p + 1) (s + 1) f rs
      { out with recips := r :: out.recips }
    else
      let data := recipientData r
      let html := renderEmailTemplate htmlTemplate data
      let subj := renderEmailTemplate subjectTemplate data
      let pr := emailRecipResult (oracle i) now r
      let p' := p + 1
      let s' := if pr.2 then s + 1 else s
      let f' := if pr.2 then f else f + 1
      let out := emailLoop htmlTemplate subjectTemplate oracle now (i + 1) p' s' f' rs
      { recips := pr.1 :: out.recips, processedCount := out.processedCount,
        successCount := out.successCount, failedCount := out.failedCount,
        trace := (p', s', f') :: out.trace, attempted := (i, subj, html) :: out.attempted }

/-- `processEmailBatch` from `job.service.ts`: choose the subject pattern as
`config.subject || emailTemplate.subject`, run the loop, then mark the job
`failed` when the local `failedCount` equals `totalCount`, else `completed`,
persisting `completedAt` (no `outputPath`).  Initial job status is never
read. -/
def processEmailBatchM (config : EmailBatchConfig) (tmpl : EmailTemplate)
    (oracle : Nat → Except String Unit) (now : Nat) (st : JobState) :
    JobState × EmailLoopOut :=
  let subjectTemplate := if config.subject ≠ "" then config.subject else tmpl.subject
  let out := emailLoop tmpl.htmlContent subjectTemplate oracle now 0 0 0 0 st.recipients
  let jobC := applyTrace st.job out.trace
  let job2 := { jobC with
    status := if out.failedCount = st.job.totalCount then JobStatus.failed
              else JobStatus.completed,
    completedAt := some now }
  ({ job := job2, recipients := out.recips }, out)

/-- The selection predicate of `retryFailedRecipients`:
`emailStatus = "failed" OR errorMessage != null`. -/
def retrySelected (r : Recipient) : Bool :=
  match r.emailStatus, r.errorMessage with
  | EmailStatus.failed, _ => true
  | _, some _ => true
  | _, _ => false

/-- `retryFailedRecipients` from `job.service.ts`: reset every selected
recipient to `pending` with a cleared error, zero the job's `failedCount`,
subtract the number reset from `processedCount`, set the job back to
`pending` and clear `completedAt`; return the number reset.  It does not
invoke either batch loop. -/
def retryFailedRecipientsM (st : JobState) : JobState × Int :=
  let n : Int := (st.recipients.filter retrySelected).length
  let recips := st.recipients.map (fun r =>
    if retrySelected r then { r with emailStatus := EmailStatus.pending, errorMessage := none }
    else r)
  let job2 := { st.job with
    status := JobStatus.pending
    failedCount := 0
    processedCount := st.job.processedCount - n
    completedAt := none }
  ({ job := job2, recipients := recips }, n)

/-- `POST /:id/cancel` from `job.routes.ts`: the entire effect of a cancel
request is this single field update. -/
def cancelJobM (st : JobState) : JobState :=
  { st with job := { st.job with status := JobStatus.cancelled } }

/-- A normalised RGB colour (`pdf-lib` takes components in `[0, 1]`). -/
structure RGB where
  r : ℚ
  g : ℚ
  b : ℚ
deriving DecidableEq

/-- The regex class `[a-f\d]` with the `i` flag: a hexadecimal digit. -/
def isHexDigitChar (c : Char) : Bool :=
  c.isDigit || ('a' ≤ c.toLower && c.toLower ≤ 'f')

/-- Value of one hexadecimal digit. -/
def hexDigitVal (c : Char) : Nat :=
  if c.isDigit then c.toNat - ('0').toNat else c.toLower.toNat - ('a').toNat + 10

/-- The regex `^#?([a-f\d]{2})([a-f\d]{2})([a-f\d]{2})$/i` of `hexToRgb`:
an optional leading `#` followed by exactly six hex digits; on success
return the six digits. -/
def hexMatch (s : List Char) : Option (Char × Char × Char × Char × Char × Char) :=
  match (match s with | '#' :: rest => rest | _ => s) with
  | [c1, c2, c3, c4, c5, c6] =>
    if [c1, c2, c3, c4, c5, c6].all isHexDigitChar then some (c1, c2, c3, c4, c5, c6)
    else none
  | _ => none

/-- `hexToRgb` from `pdf.service.ts`: parse the three two-digit components
and divide by 255; any non-matching string silently falls back to black. -/
def hexToRgb (hex : String) : RGB :=
  match hexMatch hex.data with
  | none => { r := 0, g := 0, b := 0 }
  | some (c1, c2, c3, c4, c5, c6) =>
    { r := ((16 * hexDigitVal c1 + hexDigitVal c2 : Nat) : ℚ) / 255
      g := ((16 * hexDigitVal c3 + hexDigitVal c4 : Nat) : ℚ) / 255
      b := ((16 * hexDigitVal c5 + hexDigitVal c6 : Nat) : ℚ) / 255 }

/-- `FieldConfig.alignment` values. -/
inductive TextAlignment where
  | left
  | center
  | right
deriving DecidableEq

/-- A `FieldConfig` draw instruction (`pdf.service.ts`). -/
structure FieldConfig where
  id : String
  field : String
  x : ℚ
  y : ℚ
  fontSize : ℚ
  fontFamily : String
  fontWeight : String
  color : String
  alignment : TextAlignment
  maxWidth : Option ℚ
deriving DecidableEq

/-- `calculateXPosition` from `pdf.service.ts`; the font's
`widthOfTextAtSize` is an oracle `widthOracle text fontSize`.
`pageWidth` is accepted and unused, as in the source. -/
def calculateXPosition (text : String) (widthOracle : String → ℚ → ℚ)
    (fontSize x : ℚ) (alignment : TextAlignment) (pageWidth : ℚ) : ℚ :=
  let textWidth := widthOracle text fontSize
  match alignment with
  | TextAlignment.center => x - textWidth / 2
  | TextAlignment.right => x - textWidth
  | TextAlignment.left => x

/-- One `page.drawText` call produced by the draw loop. -/
structure DrawCmd where
  text : String
  x : ℚ
  y : ℚ
  size : ℚ
  color : RGB
deriving DecidableEq

/-- One iteration of the field-drawing loop of `generateCertificate`:
skip when `data[config.field] || ""` is empty, otherwise draw at the
alignment-adjusted x and the top-left-to-bottom-left flipped
`y = pageHeight - config.y - config.fontSize`, in `hexToRgb(config.color)`. -/
def drawField (widthOracle : String → ℚ → ℚ) (pageWidth pageHeight : ℚ)
    (data : List (String × String)) (config : FieldConfig) : Option DrawCmd :=
  let text := getField data config.field
  if text = "" then none
  else
    some { text := text
           x := calculateXPosition text widthOracle config.fontSize config.x
                  config.alignment pageWidth
           y := pageHeight - config.y - config.fontSize
           size := config.fontSize
           color := hexToRgb config.color }

/-- The draw commands emitted by `generateCertificate` on the first page of
the template (the PDF container itself is external). -/
def generateCertificateDraws (widthOracle : String → ℚ → ℚ) (pageWidth pageHeight : ℚ)
    (data : List (String × String)) (fieldConfigs : List FieldConfig) : List DrawCmd :=
  fieldConfigs.filterMap (drawField widthOracle pageWidth pageHeight data)

/-! ### Ghost counting functions used to state loop invariants -/

/-- Number of recipients whose oracle outcome (starting at index `i`) is an
error — the failures the certificate loop will record. -/
def certFailCount (oracle : Nat → Except String Unit) : Nat → List Recipient → Nat
  | _, [] => 0
  | i, _ :: rs =>
    (match oracle i with | Except.ok _ => 0 | Except.error _ => 1) + certFailCount oracle (i + 1) rs

/-- Number of recipients the email loop counts as successes: already `sent`,
or not yet sent with a successful oracle outcome. -/
def emailSuccCount (oracle : Nat → Except String Unit) : Nat → List Recipient → Nat
  | _, [] => 0
  | i, r :: rs =>
    (if r.emailStatus = EmailStatus.sent then 1
     else match oracle i with | Except.ok _ => 1 | Except.error _ => 0) +
    emailSuccCount oracle (i + 1) rs

/-- Number of recipients the email loop counts as failures: not yet sent and
with a failing oracle outcome. -/
def emailFailCount (oracle : Nat → Except String Unit) : Nat → List Recipient → Nat
  | _, [] => 0
  | i, r :: rs =>
    (if r.emailStatus = EmailStatus.sent then 0
     else match oracle i with | Except.ok _ => 0 | Except.error _ => 1) +
    emailFailCount oracle (i + 1) rs

/-- The characters `sanitizeFilename` can output: alphanumerics, `-`, `_`. -/
def sanChar (c : Char) : Bool := c.isAlphanum || c = '-' || c = '_'

/-! ### Concrete fixtures used by witnesses and counterexamples -/

/-- A pending recipient. -/
def sampleRecipient : Recipient :=
  { email := "ann@example.com", fullName := "Ann Smith",
    extraFields := [(("event"), ("Demo Day"))], certificatePath := none,
    emailStatus := EmailStatus.pending, errorMessage := none, sentAt := none }

/-- A second pending recipient. -/
def sampleRecipient2 : Recipient :=
  { email := "bob@example.com", fullName := "Bob Jones", extraFields := [],
    certificatePath := none, emailStatus := EmailStatus.pending,
    errorMessage := none, sentAt := none }

/-- A recipient whose email was already delivered on a previous run. -/
def sampleSent : Recipient :=
  { email := "carol@example.com", fullName := "Carol Day", extraFields := [],
    certificatePath := some ("out/003_Carol_Day.pdf"),
    emailStatus := EmailStatus.sent, errorMessage := none, sentAt := some 3 }

/-- A recipient that failed on a previous run. -/
def sampleFailed : Recipient :=
  { email := "dan@example.com", fullName := "Dan Poe", extraFields := [],
    certificatePath := none, emailStatus := EmailStatus.failed,
    errorMessage := some ("SMTP connection failed"), sentAt := none }

/-- A freshly created two-recipient job (one pending, one already sent). -/
def sampleState : JobState :=
  { job := { status := JobStatus.pending, totalCount := 2, processedCount := 0,
             successCount := 0, failedCount := 0, completedAt := none, outputPath := none },
    recipients := [sampleRecipient, sampleSent] }

/-- A two-recipient job with both recipients still pending. -/
def samplePendingState : JobState :=
  { job := { status := JobStatus.pending, totalCount := 2, processedCount := 0,
             successCount := 0, failedCount := 0, completedAt := none, outputPath := none },
    recipients := [sampleRecipient, sampleRecipient2] }

/-- A finished job with one success and one failure, ready for retry. -/
def sampleRetryState : JobState :=
  { job := { status := JobStatus.completed, totalCount := 2, processedCount := 2,
             successCount := 1, failedCount := 1, completedAt := some 9, outputPath := none },
    recipients := [sampleFailed, sampleSent] }

/-- A certificate job configuration. -/
def sampleConfig : BatchJobConfig :=
  { templateId := "tmpl-1", namingPattern := "\x7b\x7bsn\x7d\x7d_\x7b\x7bname\x7d\x7d",
    outputPath := "out" }

/-- An email job configuration (empty subject override, so the template
subject is used). -/
def sampleEmailConfig : EmailBatchConfig :=
  { emailTemplateId := "et-1", smtpConfigId := "smtp-1", subject := "", delayMs := 3000 }

/-- An email template. -/
def sampleTemplate : EmailTemplate :=
  { subject := "Hi \x7b\x7bname\x7d\x7d", htmlContent := "<p>Dear \x7b\x7bname\x7d\x7d</p>" }

/-- A field configuration whose colour is not a valid hex colour. -/
def sampleBadColorField : FieldConfig :=
  { id := "f1", field := "name", x := 300, y := 120, fontSize := 24,
    fontFamily := "Helvetica", fontWeight := "bold", color := "red",
    alignment := TextAlignment.left, maxWidth := none }

/-! ## Helper lemmas -/

/-- `applyTrace` commutes with an update of the `status` field (which it
never touches). -/
theorem applyTrace_status (j : BatchJob) (x : JobStatus) (t : List (Int × Int × Int)) :
    applyTrace { j with status := x } t = { applyTrace j t with status := x } := by
  cases j
  unfold applyTrace
  cases t.getLast? <;> rfl

/-- `applyTrace` never touches `totalCount`. -/
theorem applyTrace_totalCount (j : BatchJob) (t : List (Int × Int × Int)) :
    (applyTrace j t).totalCount = j.totalCount := by
  unfold applyTrace
  cases t.getLast? <;> rfl

/-- `applyTrace` never touches `outputPath`. -/
theorem applyTrace_outputPath (j : BatchJob) (t : List (Int × Int × Int)) :
    (applyTrace j t).outputPath = j.outputPath := by
  unfold applyTrace
  cases t.getLast? <;> rfl


theorem certLoop_counts (config : BatchJobConfig) (oracle : Nat → Except String Unit)
    (l : List Recipient) : ∀ (i : Nat) (p s f : Int),
    (certLoop config oracle i p s f l).processedCount = p + (l.length : Int) ∧
    (certLoop config oracle i p s f l).successCount
        + (certLoop config oracle i p s f l).failedCount = s + f + (l.length : Int) ∧
    (certLoop config oracle i p s f l).failedCount = f + (certFailCount oracle i l : Int) := by
  induction l with
  | nil => intro i p s f; simp [certLoop, certFailCount]
  | cons r rs ih =>
    intro i p s f
    cases h : oracle i with
    | ok u =>
      obtain ⟨h1, h2, h3⟩ := ih (i + 1) (p + 1) (s + 1) f
      simp [certLoop, certRecipResult, h, certFailCount]
      refine ⟨?_, ?_, ?_⟩ <;> omega
    | error msg =>
      obtain ⟨h1, h2, h3⟩ := ih (i + 1) (p + 1) s (f + 1)
      simp [certLoop, certRecipResult, h, certFailCount]
      refine ⟨?_, ?_, ?_⟩ <;> omega


theorem certFailCount_le (oracle : Nat → Except String Unit) (l : List Recipient) :
    ∀ i, certFailCount oracle i l ≤ l.length := by
  induction l with
  | nil => intro i; simp [certFailCount]
  | cons r rs ih =>
    intro i
    have := ih (i + 1)
    cases h : oracle i <;> simp [certFailCount, h] <;> omega

theorem certLoop_trace (config : BatchJobConfig) (oracle : Nat → Except String Unit)
    (l : List Recipient) : ∀ (i : Nat) (p s f : Int), p = s + f →
    ∀ e ∈ (certLoop config oracle i p s f l).trace,
      e.1 = e.2.1 + e.2.2 ∧ e.1 ≤ p + (l.length : Int) := by
  induction l with
  | nil => intro i p s f _; simp [certLoop]
  | cons r rs ih =>
    intro i p s f hpsf e he
    cases h : oracle i with
    | ok u =>
      simp [certLoop, certRecipResult, h] at he
      rcases he with rfl | he
      · exact ⟨by simp <;> omega, by simp only [List.length_cons] <;> omega⟩
      · have h5 := ih (i + 1) (p + 1) (s + 1) f (by omega) e he
        have h6 := h5.2
        refine ⟨h5.1, ?_⟩
        simp only [List.length_cons]
        omega
    | error msg =>
      simp [certLoop, certRecipResult, h] at he
      rcases he with rfl | he
      · exact ⟨by simp <;> omega, by simp only [List.length_cons] <;> omega⟩
      · have h5 := ih (i + 1) (p + 1) s (f + 1) (by omega) e he
        have h6 := h5.2
        refine ⟨h5.1, ?_⟩
        simp only [List.length_cons]
        omega


theorem certLoop_get (config : BatchJobConfig) (oracle : Nat → Except String Unit)
    (l : List Recipient) : ∀ (i : Nat) (p s f : Int) (k : Nat),
    (certLoop config oracle i p s f l).recips.get? k
      = (l.get? k).map (fun r => (certRecipResult config (oracle (i + k)) r (i + k)).1) := by
  induction l with
  | nil => intro i p s f k; simp [certLoop]
  | cons r rs ih =>
    intro i p s f k
    cases k with
    | zero => simp [certLoop]
    | succ k =>
      have hidx : i + 1 + k = i + (k + 1) := by omega
      simp only [certLoop, List.get?]
      rw [ih (i + 1) (p + 1) (if (certRecipResult config (oracle i) r i).2 then s + 1 else s)
        (if (certRecipResult config (oracle i) r i).2 then f else f + 1) k, hidx]


theorem emailCounts_sum (oracle : Nat → Except String Unit) (l : List Recipient) :
    ∀ i, emailSuccCount oracle i l + emailFailCount oracle i l = l.length := by
  induction l with
  | nil => intro i; simp [emailSuccCount, emailFailCount]
  | cons r rs ih =>
    intro i
    have := ih (i + 1)
    by_cases hs : r.emailStatus = EmailStatus.sent
    · simp [emailSuccCount, emailFailCount, hs]; omega
    · cases h : oracle i <;> simp [emailSuccCount, emailFailCount, hs, h] <;> omega

theorem emailLoop_counts (html subj : String) (oracle : Nat → Except String Unit) (now : Nat)
    (l : List Recipient) : ∀ (i : Nat) (p s f : Int),
    (emailLoop html subj oracle now i p s f l).processedCount = p + (l.length : Int) ∧
    (emailLoop html subj oracle now i p s f l).successCount
      = s + (emailSuccCount oracle i l : Int) ∧
    (emailLoop html subj oracle now i p s f l).failedCount
      = f + (emailFailCount oracle i l : Int) := by
  induction l with
  | nil => intro i p s f; simp [emailLoop, emailSuccCount, emailFailCount]
  | cons r rs ih =>
    intro i p s f
    by_cases hs : r.emailStatus = EmailStatus.sent
    · obtain ⟨h1, h2, h3⟩ := ih (i + 1) (p + 1) (s + 1) f
      simp [emailLoop, emailSuccCount, emailFailCount, hs]
      refine ⟨?_, ?_, ?_⟩ <;> omega
    · cases h : oracle i with
      | ok u =>
        obtain ⟨h1, h2, h3⟩ := ih (i + 1) (p + 1) (s + 1) f
        simp [emailLoop, emailRecipResult, emailSuccCount, emailFailCount, hs, h]
        refine ⟨?_, ?_, ?_⟩ <;> omega
      | error msg =>
        obtain ⟨h1, h2, h3⟩ := ih (i + 1) (p + 1) s (f + 1)
        simp [emailLoop, emailRecipResult, emailSuccCount, emailFailCount, hs, h]
        refine ⟨?_, ?_, ?_⟩ <;> omega

theorem emailLoop_trace (html subj : String) (oracle : Nat → Except String Unit) (now : Nat)
    (l : List Recipient) : ∀ (i : Nat) (p s f : Int), p = s + f →
    ∀ e ∈ (emailLoop html subj oracle now i p s f l).trace,
      e.1 = e.2.1 + e.2.2 ∧ e.1 ≤ p + (l.length : Int) := by
  induction l with
  | nil => intro i p s f _; simp [emailLoop]
  | cons r rs ih =>
    intro i p s f hpsf e he
    by_cases hs : r.emailStatus = EmailStatus.sent
    · simp [emailLoop, hs] at he
      have h5 := ih (i + 1) (p + 1) (s + 1) f (by omega) e he
      have h6 := h5.2
      refine ⟨h5.1, ?_⟩
      simp only [List.length_cons]
      omega
    · cases h : oracle i with
      | ok u =>
        simp [emailLoop, emailRecipResult, hs, h] at he
        rcases he with rfl | he
        · exact ⟨by simp <;> omega, by simp only [List.length_cons] <;> omega⟩
        · have h5 := ih (i + 1) (p + 1) (s + 1) f (by omega) e he
          have h6 := h5.2
          refine ⟨h5.1, ?_⟩
          simp only [List.length_cons]
          omega
      | error msg =>
        simp [emailLoop, emailRecipResult, hs, h] at he
        rcases he with rfl | he
        · exact ⟨by simp <;> omega, by simp only [List.length_cons] <;> omega⟩
        · have h5 := ih (i + 1) (p + 1) s (f + 1) (by omega) e he
          have h6 := h5.2
          refine ⟨h5.1, ?_⟩
          simp only [List.length_cons]
          omega

theorem emailLoop_get (html subj : String) (oracle : Nat → Except String Unit) (now : Nat)
    (l : List Recipient) : ∀ (i : Nat) (p s f : Int) (k : Nat),
    (emailLoop html subj oracle now i p s f l).recips.get? k
      = (l.get? k).map (fun r =>
          if r.emailStatus = EmailStatus.sent then r
          else (emailRecipResult (oracle (i + k)) now r).1) := by
  induction l with
  | nil => intro i p s f k; simp [emailLoop]
  | cons r rs ih =>
    intro i p s f k
    by_cases hs : r.emailStatus = EmailStatus.sent
    · cases k with
      | zero => simp [emailLoop, hs]
      | succ k =>
        have hidx : i + 1 + k = i + (k + 1) := by omega
        simp only [emailLoop, hs, if_pos, List.get?]
        rw [ih (i + 1) (p + 1) (s + 1) f k, hidx]
    · cases k with
      | zero => simp [emailLoop, hs]
      | succ k =>
        have hidx : i + 1 + k = i + (k + 1) := by omega
        simp only [emailLoop, hs, List.get?]
        rw [ih (i + 1) (p + 1)
          (if (emailRecipResult (oracle i) now r).2 then s + 1 else s)
          (if (emailRecipResult (oracle i) now r).2 then f else f + 1) k, hidx]

theorem emailLoop_attempted (html subj : String) (oracle : Nat → Except String Unit) (now : Nat)
    (l : List Recipient) : ∀ (i : Nat) (p s f : Int),
    ∀ a ∈ (emailLoop html subj oracle now i p s f l).attempted,
      ∃ k r, l.get? k = some r ∧ a.1 = i + k ∧ r.emailStatus ≠ EmailStatus.sent := by
  induction l with
  | nil => intro i p s f a ha; simp [emailLoop] at ha
  | cons r rs ih =>
    intro i p s f a ha
    by_cases hs : r.emailStatus = EmailStatus.sent
    · simp only [emailLoop, hs, if_pos] at ha
      obtain ⟨k, r2, hk, hik, hns⟩ := ih (i + 1) (p + 1) (s + 1) f a (by simpa using ha)
      exact ⟨k + 1, r2, by simpa using hk, by omega, hns⟩
    · simp [emailLoop, hs] at ha
      rcases ha with rfl | ha
      · exact ⟨0, r, by simp, by simp, hs⟩
      · obtain ⟨k, r2, hk, hik, hns⟩ := ih (i + 1) (p + 1)
          (if (emailRecipResult (oracle i) now r).2 then s + 1 else s)
          (if (emailRecipResult (oracle i) now r).2 then f else f + 1) a ha
        exact ⟨k + 1, r2, by simpa using hk, by omega, hns⟩

theorem emailSuccCount_pos (oracle : Nat → Except String Unit) (l : List Recipient) :
    ∀ (i k : Nat) (r : Recipient), l.get? k = some r → r.emailStatus = EmailStatus.sent →
    1 ≤ emailSuccCount oracle i l := by
  induction l with
  | nil => intro i k r hk; simp at hk
  | cons r0 rs ih =>
    intro i k r hk hs
    cases k with
    | zero =>
      rw [List.get?_cons_zero] at hk
      injection hk with h0
      subst h0
      simp [emailSuccCount, hs]
    | succ k =>
      rw [List.get?_cons_succ] at hk
      have := ih (i + 1) k r hk hs
      by_cases h0 : r0.emailStatus = EmailStatus.sent
      · simp [emailSuccCount, h0] <;> omega
      · cases h : oracle i <;> simp [emailSuccCount, h0, h] <;> omega

/-- On a replacement value containing no `$`, ECMAScript `$`-escape
expansion is the identity (auxiliary, fuel-generalised form). -/
theorem expandDollarAux_id (matched before after : List Char) :
    ∀ (fuel : Nat) (l : List Char), l.length ≤ fuel → (∀ c ∈ l, c ≠ '$') →
      expandDollarAux matched before after fuel l = l := by
  intro fuel
  induction fuel with
  | zero => intro l _ _; rfl
  | succ n ih =>
    intro l hlen h
    cases l with
    | nil => rfl
    | cons c rest =>
      have hc : c ≠ '$' := h c (List.mem_cons_self _ _)
      simp only [expandDollarAux]
      rw [if_neg hc,
        ih rest (by simp at hlen; omega) (fun x hx => h x (List.mem_cons_of_mem _ hx))]

/-- On a replacement value containing no `$`, ECMAScript `$`-escape
expansion is the identity. -/
theorem expandDollar_id (matched before after : List Char) (l : List Char)
    (h : ∀ c ∈ l, c ≠ '$') : expandDollar matched before after l = l :=
  expandDollarAux_id matched before after l.length l (Nat.le_refl _) h

/-- `sanitizeFilename` output never contains `$` (it is not in the kept
character class), so its insertion as a replacement is verbatim. -/
theorem sanChar_ne_dollar {c : Char} (h : sanChar c = true) : c ≠ '$' := by
  rintro rfl
  exact absurd h (by decide)

/-! ## Claim C1 — placeholder substitution -/

/-- C1 (counterexample): rendering `"Hello {{name}}, welcome to {{event}}"`
with a record containing only `name: "Amir"` leaves the unmatched
`{{event}}` token literal; it does not produce `"Hello Amir, welcome to "`
as the claim states. -/
theorem C1_counterexample :
    renderEmailTemplate ("Hello \x7b\x7bname\x7d\x7d, welcome to \x7b\x7bevent\x7d\x7d")
        [(("name"), ("Amir"))] = ("Hello Amir, welcome to \x7b\x7bevent\x7d\x7d") ∧
    renderEmailTemplate ("Hello \x7b\x7bname\x7d\x7d, welcome to \x7b\x7bevent\x7d\x7d")
        [(("name"), ("Amir"))] ≠ ("Hello Amir, welcome to ") := by
  exact ⟨rfl, by decide⟩

/-- C1 (amended): placeholder substitution replaces each `{{identifier}}`
token case-insensitively (with optional inner whitespace) by the record's
value, with ECMAScript `$`-escape sequences in the value expanded — so for
every `$`-free value the value is inserted verbatim (an empty value yields
the empty string), while e.g. the value `"$&"` re-inserts the matched token
itself — and a token whose identifier matches no key of the record is left
literal.  In particular the claim's example renders to
`"Hello Amir, welcome to {{event}}"`. -/
theorem C1_render_semantics :
    (∀ v : String, (∀ c ∈ v.data, c ≠ '$') →
      renderEmailTemplate ("Hello \x7b\x7bname\x7d\x7d, welcome to \x7b\x7bevent\x7d\x7d")
          [(("name"), v)]
        = ("Hello ") ++ v ++ (", welcome to \x7b\x7bevent\x7d\x7d")) ∧
    renderEmailTemplate ("Hello \x7b\x7bname\x7d\x7d, welcome to \x7b\x7bevent\x7d\x7d")
        [(("name"), ("$&"))]
      = ("Hello \x7b\x7bname\x7d\x7d, welcome to \x7b\x7bevent\x7d\x7d") ∧
    renderEmailTemplate ("Hello \x7b\x7b NAME \x7d\x7d!") [(("name"), ("Amir"))]
      = ("Hello Amir!") ∧
    renderEmailTemplate ("\x7b\x7bname\x7d\x7d") [(("name"), (""))] = ("") ∧
    (∀ t : String, renderEmailTemplate t [] = t) := by
  refine ⟨?_, rfl, rfl, rfl, fun t => rfl⟩
  intro v hv
  have key : renderEmailTemplate ("Hello \x7b\x7bname\x7d\x7d, welcome to \x7b\x7bevent\x7d\x7d")
      [(("name"), v)]
      = ⟨("Hello ").data ++
          (expandDollar ("\x7b\x7bname\x7d\x7d").data ("Hello ").data
              (", welcome to \x7b\x7bevent\x7d\x7d").data v.data
            ++ (", welcome to \x7b\x7bevent\x7d\x7d").data)⟩ := rfl
  rw [key, expandDollar_id _ _ _ v.data hv]
  exact congrArg String.mk (List.append_assoc _ _ _).symm

/-! ## Claim C2 — CSV validation of rows with missing emails -/

/-- C2: on the claim's own scenario — three rows, required field `name`,
two valid emails and one empty email — the code returns `isValid = false`
with the parse-level error `Row 4: Missing email field` (in addition to the
expected warning), because `parseCSV`'s `on_record` hook records an error
for every row without a non-empty email and `validateCSVForCertificates`
folds all parse errors into `errors`.  This contradicts the claim (and the
code's own comment that email is optional). -/
theorem C2_empty_email_fails_validation :
    validateCSVForCertificates
        (parseCSVModel [("name"), ("email")]
          [[("Alice"), ("alice@example.com")],
           [("Bob"), ("bob@example.com")],
           [("Carol"), ("")]])
        [("name")]
      = { isValid := false,
          errors := [("Row 4: Missing email field")],
          warnings := [("1 row(s) have empty email addresses")] } := by
  decide

/-! ## Claim C3 — cooperative cancellation -/

/-- C3: the running loops never observe cancellation.  Setting the job's
status to `cancelled` (the entire effect of `POST /:id/cancel`) has no
effect whatsoever on either batch run — the results are identical — and on
a concrete cancelled two-recipient job the email loop still processes and
sends to both recipients and finally overwrites the status with
`completed`. -/
theorem C3_cancellation_ignored :
    (∀ (config : EmailBatchConfig) (tmpl : EmailTemplate) (oracle : Nat → Except String Unit)
        (now : Nat) (st : JobState),
        processEmailBatchM config tmpl oracle now (cancelJobM st)
          = processEmailBatchM config tmpl oracle now st) ∧
    (∀ (config : BatchJobConfig) (oracle : Nat → Except String Unit)
        (now : Nat) (st : JobState),
        processCertificateBatchM config oracle now (cancelJobM st)
          = processCertificateBatchM config oracle now st) ∧
    (processEmailBatchM sampleEmailConfig sampleTemplate (fun _ => Except.ok ()) 9
        (cancelJobM samplePendingState)).2.processedCount = 2 ∧
    (processEmailBatchM sampleEmailConfig sampleTemplate (fun _ => Except.ok ()) 9
        (cancelJobM samplePendingState)).2.attempted.length = 2 ∧
    (processEmailBatchM sampleEmailConfig sampleTemplate (fun _ => Except.ok ()) 9
        (cancelJobM samplePendingState)).1.job.status = JobStatus.completed := by
  refine ⟨?_, ?_, by decide, by decide, by decide⟩
  · intro config tmpl oracle now st
    obtain ⟨j, recips⟩ := st
    simp only [processEmailBatchM, cancelJobM]
    rw [applyTrace_status]
  · intro config oracle now st
    obtain ⟨j, recips⟩ := st
    simp only [processCertificateBatchM, cancelJobM]
    rw [applyTrace_status]


/-! ### Projection lemmas for the batch runners (all definitional) -/

theorem processCert_snd (config : BatchJobConfig) (oracle : Nat → Except String Unit)
    (now : Nat) (st : JobState) :
    (processCertificateBatchM config oracle now st).2
      = certLoop config oracle 0 0 0 0 st.recipients := rfl

theorem processCert_recipients (config : BatchJobConfig) (oracle : Nat → Except String Unit)
    (now : Nat) (st : JobState) :
    (processCertificateBatchM config oracle now st).1.recipients
      = (certLoop config oracle 0 0 0 0 st.recipients).recips := rfl

theorem processCert_status (config : BatchJobConfig) (oracle : Nat → Except String Unit)
    (now : Nat) (st : JobState) :
    (processCertificateBatchM config oracle now st).1.job.status
      = if (certLoop config oracle 0 0 0 0 st.recipients).failedCount = st.job.totalCount
        then JobStatus.failed else JobStatus.completed := rfl

theorem processCert_completedAt (config : BatchJobConfig) (oracle : Nat → Except String Unit)
    (now : Nat) (st : JobState) :
    (processCertificateBatchM config oracle now st).1.job.completedAt = some now := rfl

theorem processCert_outputPath (config : BatchJobConfig) (oracle : Nat → Except String Unit)
    (now : Nat) (st : JobState) :
    (processCertificateBatchM config oracle now st).1.job.outputPath
      = some config.outputPath := rfl

theorem processCert_totalCount (config : BatchJobConfig) (oracle : Nat → Except String Unit)
    (now : Nat) (st : JobState) :
    (processCertificateBatchM config oracle now st).1.job.totalCount = st.job.totalCount :=
  applyTrace_totalCount st.job _

theorem processEmail_snd (config : EmailBatchConfig) (tmpl : EmailTemplate)
    (oracle : Nat → Except String Unit) (now : Nat) (st : JobState) :
    (processEmailBatchM config tmpl oracle now st).2
      = emailLoop tmpl.htmlContent
          (if config.subject ≠ "" then config.subject else tmpl.subject)
          oracle now 0 0 0 0 st.recipients := rfl

theorem processEmail_recipients (config : EmailBatchConfig) (tmpl : EmailTemplate)
    (oracle : Nat → Except String Unit) (now : Nat) (st : JobState) :
    (processEmailBatchM config tmpl oracle now st).1.recipients
      = (emailLoop tmpl.htmlContent
          (if config.subject ≠ "" then config.subject else tmpl.subject)
          oracle now 0 0 0 0 st.recipients).recips := rfl

theorem processEmail_status (config : EmailBatchConfig) (tmpl : EmailTemplate)
    (oracle : Nat → Except String Unit) (now : Nat) (st : JobState) :
    (processEmailBatchM config tmpl oracle now st).1.job.status
      = if (processEmailBatchM config tmpl oracle now st).2.failedCount = st.job.totalCount
        then JobStatus.failed else JobStatus.completed := rfl

theorem processEmail_completedAt (config : EmailBatchConfig) (tmpl : EmailTemplate)
    (oracle : Nat → Except String Unit) (now : Nat) (st : JobState) :
    (processEmailBatchM config tmpl oracle now st).1.job.completedAt = some now := rfl

theorem processEmail_outputPath (config : EmailBatchConfig) (tmpl : EmailTemplate)
    (oracle : Nat → Except String Unit) (now : Nat) (st : JobState) :
    (processEmailBatchM config tmpl oracle now st).1.job.outputPath = st.job.outputPath :=
  applyTrace_outputPath st.job _

theorem processEmail_totalCount (config : EmailBatchConfig) (tmpl : EmailTemplate)
    (oracle : Nat → Except String Unit) (now : Nat) (st : JobState) :
    (processEmailBatchM config tmpl oracle now st).1.job.totalCount = st.job.totalCount :=
  applyTrace_totalCount st.job _

/-- The final `failed`/`completed` decision as a function of the loop's
counters: with `success + failed = total` and `failed ≤ total`, the job
completes iff `failed < total` iff at least one recipient succeeded. -/
theorem final_status_iff (F total S : Int) (hle : F ≤ total) (hsum : S + F = total) :
    ((if F = total then JobStatus.failed else JobStatus.completed) = JobStatus.completed
       ↔ F < total) ∧
    ((if F = total then JobStatus.failed else JobStatus.completed) = JobStatus.failed
       ↔ ¬ F < total) ∧
    ((if F = total then JobStatus.failed else JobStatus.completed) = JobStatus.completed
       ↔ 0 < S) := by
  by_cases hF : F = total <;> simp [hF] <;> omega

/-! ## Claim C4 — counter invariants -/

/-- C4: after every recipient iteration of either batch loop, the persisted
counter triple satisfies `processedCount = successCount + failedCount` and
`processedCount ≤ totalCount` (given that the job was created with
`totalCount` equal to its recipient count), and no operation of the engine
ever changes `totalCount`. -/
theorem C4_counter_invariants (config : BatchJobConfig) (econfig : EmailBatchConfig)
    (tmpl : EmailTemplate) (oracle : Nat → Except String Unit) (now : Nat) (st : JobState)
    (h : st.job.totalCount = (st.recipients.length : Int)) :
    (∀ e ∈ (processCertificateBatchM config oracle now st).2.trace,
        e.1 = e.2.1 + e.2.2 ∧ e.1 ≤ st.job.totalCount) ∧
    (∀ e ∈ (processEmailBatchM econfig tmpl oracle now st).2.trace,
        e.1 = e.2.1 + e.2.2 ∧ e.1 ≤ st.job.totalCount) ∧
    (processCertificateBatchM config oracle now st).1.job.totalCount = st.job.totalCount ∧
    (processEmailBatchM econfig tmpl oracle now st).1.job.totalCount = st.job.totalCount ∧
    (retryFailedRecipientsM st).1.job.totalCount = st.job.totalCount := by
  refine ⟨?_, ?_, processCert_totalCount config oracle now st,
    processEmail_totalCount econfig tmpl oracle now st, rfl⟩
  · intro e he
    rw [processCert_snd] at he
    have h5 := certLoop_trace config oracle st.recipients 0 0 0 0 (by omega) e he
    exact ⟨h5.1, by have := h5.2; omega⟩
  · intro e he
    rw [processEmail_snd] at he
    have h5 := emailLoop_trace tmpl.htmlContent
      (if econfig.subject ≠ "" then econfig.subject else tmpl.subject)
      oracle now st.recipients 0 0 0 0 (by omega) e he
    exact ⟨h5.1, by have := h5.2; omega⟩

/-! ## Claim C5 — terminal status -/

/-- C5: when either loop runs to the end, the job's final status is
`completed` iff the loop's `failedCount` is strictly below `totalCount`
(equivalently, iff at least one recipient succeeded), otherwise `failed`;
`completedAt` is set at that point, `outputPath` additionally for
certificate jobs (the email runner leaves `outputPath` unchanged). -/
theorem C5_terminal_status (config : BatchJobConfig) (econfig : EmailBatchConfig)
    (tmpl : EmailTemplate) (oracle : Nat → Except String Unit) (now : Nat) (st : JobState)
    (h : st.job.totalCount = (st.recipients.length : Int)) :
    ((processCertificateBatchM config oracle now st).1.job.status = JobStatus.completed
       ↔ (processCertificateBatchM config oracle now st).2.failedCount < st.job.totalCount) ∧
    ((processCertificateBatchM config oracle now st).1.job.status = JobStatus.failed
       ↔ ¬ (processCertificateBatchM config oracle now st).2.failedCount < st.job.totalCount) ∧
    ((processCertificateBatchM config oracle now st).1.job.status = JobStatus.completed
       ↔ 0 < (processCertificateBatchM config oracle now st).2.successCount) ∧
    (processCertificateBatchM config oracle now st).1.job.completedAt = some now ∧
    (processCertificateBatchM config oracle now st).1.job.outputPath = some config.outputPath ∧
    ((processEmailBatchM econfig tmpl oracle now st).1.job.status = JobStatus.completed
       ↔ (processEmailBatchM econfig tmpl oracle now st).2.failedCount < st.job.totalCount) ∧
    ((processEmailBatchM econfig tmpl oracle now st).1.job.status = JobStatus.failed
       ↔ ¬ (processEmailBatchM econfig tmpl oracle now st).2.failedCount < st.job.totalCount) ∧
    ((processEmailBatchM econfig tmpl oracle now st).1.job.status = JobStatus.completed
       ↔ 0 < (processEmailBatchM econfig tmpl oracle now st).2.successCount) ∧
    (processEmailBatchM econfig tmpl oracle now st).1.job.completedAt = some now ∧
    (processEmailBatchM econfig tmpl oracle now st).1.job.outputPath = st.job.outputPath := by
  obtain ⟨hp, hsum, hfail⟩ := certLoop_counts config oracle st.recipients 0 0 0 0
  have hcle := certFailCount_le oracle st.recipients 0
  obtain ⟨hp2, hs2, hf2⟩ := emailLoop_counts tmpl.htmlContent
    (if econfig.subject ≠ "" then econfig.subject else tmpl.subject)
    oracle now st.recipients 0 0 0 0
  have hes := emailCounts_sum oracle st.recipients 0
  obtain ⟨hc1, hc2, hc3⟩ := final_status_iff
    (certLoop config oracle 0 0 0 0 st.recipients).failedCount st.job.totalCount
    (certLoop config oracle 0 0 0 0 st.recipients).successCount
    (by omega) (by omega)
  obtain ⟨he1, he2, he3⟩ := final_status_iff
    (processEmailBatchM econfig tmpl oracle now st).2.failedCount st.job.totalCount
    (processEmailBatchM econfig tmpl oracle now st).2.successCount
    (by rw [processEmail_snd]; omega) (by rw [processEmail_snd]; omega)
  refine ⟨?_, ?_, ?_, processCert_completedAt config oracle now st,
    processCert_outputPath config oracle now st, ?_, ?_, ?_,
    processEmail_completedAt econfig tmpl oracle now st,
    processEmail_outputPath econfig tmpl oracle now st⟩
  · rw [processCert_status, processCert_snd]; exact hc1
  · rw [processCert_status, processCert_snd]; exact hc2
  · rw [processCert_status, processCert_snd]; exact hc3
  · rw [processEmail_status]; exact he1
  · rw [processEmail_status]; exact he2
  · rw [processEmail_status]; exact he3


/-! ## Claim C6 — idempotent skip of already-sent recipients -/

/-- C6: re-running the email loop is idempotent for recipients whose
`emailStatus` is already `sent`: such a recipient is returned unchanged
(in particular its `sentAt` is untouched), no email is rendered or sent for
it (it never appears in the attempt log), yet every recipient is counted in
`processedCount` and the sent recipient contributes to `successCount`
(which counts exactly the already-sent recipients plus the fresh successes). -/
theorem C6_sent_skip_idempotent (econfig : EmailBatchConfig) (tmpl : EmailTemplate)
    (oracle : Nat → Except String Unit) (now : Nat) (st : JobState) (k : Nat) (r : Recipient)
    (hk : st.recipients.get? k = some r) (hs : r.emailStatus = EmailStatus.sent) :
    (processEmailBatchM econfig tmpl oracle now st).1.recipients.get? k = some r ∧
    (∀ a ∈ (processEmailBatchM econfig tmpl oracle now st).2.attempted, a.1 ≠ k) ∧
    (processEmailBatchM econfig tmpl oracle now st).2.processedCount
      = (st.recipients.length : Int) ∧
    (processEmailBatchM econfig tmpl oracle now st).2.successCount
      = (emailSuccCount oracle 0 st.recipients : Int) ∧
    1 ≤ emailSuccCount oracle 0 st.recipients := by
  obtain ⟨hp, hsc, hfc⟩ := emailLoop_counts tmpl.htmlContent
    (if econfig.subject ≠ "" then econfig.subject else tmpl.subject)
    oracle now st.recipients 0 0 0 0
  refine ⟨?_, ?_, ?_, ?_, emailSuccCount_pos oracle st.recipients 0 k r hk hs⟩
  · rw [processEmail_recipients, emailLoop_get, hk]
    simp [hs]
  · intro a ha heq
    rw [processEmail_snd] at ha
    obtain ⟨k2, r2, hk2, hik, hns⟩ := emailLoop_attempted tmpl.htmlContent
      (if econfig.subject ≠ "" then econfig.subject else tmpl.subject)
      oracle now st.recipients 0 0 0 0 a ha
    have hkk : k2 = k := by omega
    subst hkk
    rw [hk] at hk2
    injection hk2 with h2
    exact hns (h2 ▸ hs)
  · rw [processEmail_snd]
    omega
  · rw [processEmail_snd]
    omega

/-! ## Claim C7 — retry-failed semantics -/

/-- `retrySelected` decides exactly the claim's selection predicate. -/
theorem retrySelected_iff (r : Recipient) :
    retrySelected r = true ↔ (r.emailStatus = EmailStatus.failed ∨ r.errorMessage ≠ none) := by
  cases hE : r.emailStatus <;> cases hM : r.errorMessage <;> simp [retrySelected, hE, hM]

/-- C7: retry-failed selects exactly the recipients with
`emailStatus = failed` or a non-null `errorMessage`; it resets each of them
to `pending` with a cleared error and leaves every other recipient (and
every recipient's `sentAt` and `certificatePath`) untouched; it zeroes the
job's `failedCount`, lowers `processedCount` by the number reset, sets the
status to `pending` and clears `completedAt`; it performs no processing
itself (no recipient is newly marked `sent`). -/
theorem C7_retry_failed (st : JobState) :
    (retryFailedRecipientsM st).2 = ((st.recipients.filter retrySelected).length : Int) ∧
    (∀ k r, st.recipients.get? k = some r →
      (r.emailStatus = EmailStatus.failed ∨ r.errorMessage ≠ none) →
      (retryFailedRecipientsM st).1.recipients.get? k
        = some { r with emailStatus := EmailStatus.pending, errorMessage := none }) ∧
    (∀ k r, st.recipients.get? k = some r →
      ¬(r.emailStatus = EmailStatus.failed ∨ r.errorMessage ≠ none) →
      (retryFailedRecipientsM st).1.recipients.get? k = some r) ∧
    (∀ k r, st.recipients.get? k = some r →
      ∃ r2, (retryFailedRecipientsM st).1.recipients.get? k = some r2 ∧
        r2.sentAt = r.sentAt ∧ r2.certificatePath = r.certificatePath ∧
        (r2.emailStatus = EmailStatus.sent → r.emailStatus = EmailStatus.sent)) ∧
    (retryFailedRecipientsM st).1.job.failedCount = 0 ∧
    (retryFailedRecipientsM st).1.job.processedCount
      = st.job.processedCount - (retryFailedRecipientsM st).2 ∧
    (retryFailedRecipientsM st).1.job.status = JobStatus.pending ∧
    (retryFailedRecipientsM st).1.job.completedAt = none ∧
    (retryFailedRecipientsM st).1.job.successCount = st.job.successCount := by
  have hmap : (retryFailedRecipientsM st).1.recipients
      = st.recipients.map (fun r =>
          if retrySelected r then
            { r with emailStatus := EmailStatus.pending, errorMessage := none }
          else r) := rfl
  refine ⟨rfl, ?_, ?_, ?_, rfl, rfl, rfl, rfl, rfl⟩
  · intro k r hk hsel
    rw [hmap, List.get?_map, hk]
    simp [(retrySelected_iff r).2 hsel]
  · intro k r hk hsel
    have : retrySelected r = false := by
      cases hb : retrySelected r
      · rfl
      · exact absurd ((retrySelected_iff r).1 hb) hsel
    rw [hmap, List.get?_map, hk]
    simp [this]
  · intro k r hk
    rw [hmap, List.get?_map, hk]
    cases hb : retrySelected r
    · exact ⟨r, by simp [hb], rfl, rfl, fun hx => hx⟩
    · exact ⟨{ r with emailStatus := EmailStatus.pending, errorMessage := none },
        by simp [hb], rfl, rfl, by simp⟩

/-! ## Claim C8 — per-recipient failure containment -/

/-- C8: in both loops a per-recipient failure records the error on that
recipient and is counted in `failedCount`, and processing always continues:
every recipient is processed regardless of other recipients' failures, and
every recipient with a successful outcome ends up fully processed
(certificate path recorded) no matter which other recipients failed. -/
theorem C8_failure_containment (config : BatchJobConfig) (econfig : EmailBatchConfig)
    (tmpl : EmailTemplate) (oracle : Nat → Except String Unit) (now : Nat) (st : JobState)
    (k : Nat) (r : Recipient) (msg : String)
    (hk : st.recipients.get? k = some r) :
    (processCertificateBatchM config oracle now st).2.processedCount
      = (st.recipients.length : Int) ∧
    (oracle k = Except.error msg →
      (processCertificateBatchM config oracle now st).1.recipients.get? k
        = some { r with errorMessage := some msg }) ∧
    (processCertificateBatchM config oracle now st).2.failedCount
      = (certFailCount oracle 0 st.recipients : Int) ∧
    (processEmailBatchM econfig tmpl oracle now st).2.processedCount
      = (st.recipients.length : Int) ∧
    (oracle k = Except.error msg → r.emailStatus ≠ EmailStatus.sent →
      (processEmailBatchM econfig tmpl oracle now st).1.recipients.get? k
        = some { r with emailStatus := EmailStatus.failed, errorMessage := some msg }) ∧
    (∀ j rj, st.recipients.get? j = some rj → oracle j = Except.ok () →
      (processCertificateBatchM config oracle now st).1.recipients.get? j
        = some { rj with certificatePath := some (certSuccessPath config rj j) }) := by
  obtain ⟨hp, hsum, hfail⟩ := certLoop_counts config oracle st.recipients 0 0 0 0
  obtain ⟨hp2, hs2, hf2⟩ := emailLoop_counts tmpl.htmlContent
    (if econfig.subject ≠ "" then econfig.subject else tmpl.subject)
    oracle now st.recipients 0 0 0 0
  refine ⟨by rw [processCert_snd]; omega, ?_, by rw [processCert_snd]; omega,
    by rw [processEmail_snd]; omega, ?_, ?_⟩
  · intro herr
    rw [processCert_recipients, certLoop_get, hk]
    simp [Nat.zero_add, herr, certRecipResult]
  · intro herr hns
    rw [processEmail_recipients, emailLoop_get, hk]
    simp [Nat.zero_add, herr, emailRecipResult, hns]
  · intro j rj hj hok
    rw [processCert_recipients, certLoop_get, hj]
    simp [Nat.zero_add, hok, certRecipResult]


theorem toNat_ofNat_valid {n : Nat} (h : n < 55296) : (Char.ofNat n).toNat = n := by
  rw [Char.ofNat, dif_pos (Or.inl h : Nat.isValidChar n)]
  rfl

theorem sanChar_toLower_ne_dot {c : Char} (h : sanChar c = true) : c.toLower ≠ '.' := by
  intro heq
  simp only [Char.toLower] at heq
  split at heq
  · rename_i hn
    have h2 := congrArg Char.toNat heq
    rw [toNat_ofNat_valid (by omega)] at h2
    have h3 : ('.' : Char).toNat = 46 := rfl
    omega
  · subst heq
    exact absurd h (by decide)

theorem collapseWs_chars (fuel : Nat) : ∀ (s : List Char), s.length ≤ fuel →
    ∀ c ∈ collapseWsAux fuel s, c = '_' ∨ (c ∈ s ∧ isSpaceChar c = false) := by
  induction fuel with
  | zero =>
    intro s hs c hc
    have : s = [] := List.eq_nil_of_length_eq_zero (by omega)
    subst this
    simp [collapseWsAux] at hc
  | succ n ih =>
    intro s hs c hc
    cases s with
    | nil => simp [collapseWsAux] at hc
    | cons a as =>
      simp only [collapseWsAux] at hc
      by_cases ha : isSpaceChar a = true
      · rw [if_pos ha] at hc
        rcases List.mem_cons.1 hc with rfl | hc2
        · exact Or.inl rfl
        · have hlen : (as.dropWhile isSpaceChar).length ≤ n := by
            have := (List.dropWhile_sublist (l := as) isSpaceChar).length_le
            simp at hs
            omega
          rcases ih (as.dropWhile isSpaceChar) hlen c hc2 with h1 | ⟨h2, h3⟩
          · exact Or.inl h1
          · exact Or.inr ⟨List.mem_cons_of_mem a ((List.dropWhile_sublist _).subset h2), h3⟩
      · rw [if_neg ha] at hc
        rcases List.mem_cons.1 hc with rfl | hc2
        · exact Or.inr ⟨List.mem_cons_self _ _, by simpa using ha⟩
        · have hlen : as.length ≤ n := by simp at hs; omega
          rcases ih as hlen c hc2 with h1 | ⟨h2, h3⟩
          · exact Or.inl h1
          · exact Or.inr ⟨List.mem_cons_of_mem a h2, h3⟩

theorem sanitizeL_chars (s : List Char) : ∀ c ∈ sanitizeL s, sanChar c = true := by
  intro c hc
  unfold sanitizeL at hc
  have hc2 := List.mem_of_mem_take hc
  rcases collapseWs_chars (s.filter keepChar).length (s.filter keepChar) (Nat.le_refl _) c hc2
    with h4 | ⟨hmem, hns⟩
  · rw [h4]; decide
  · have hk := List.of_mem_filter hmem
    simp [keepChar, hns] at hk
    simp [sanChar]
    tauto

theorem endsWithPdf_eq_false {l : List Char} (h : ∀ c ∈ l, Char.toLower c ≠ '.') :
    endsWithPdf l = false := by
  by_contra hx
  rw [Bool.not_eq_false] at hx
  unfold endsWithPdf lowercaseL at hx
  rw [List.isSuffixOf_iff_suffix] at hx
  have hdot : '.' ∈ l.map Char.toLower := hx.subset (by decide)
  obtain ⟨c, hcl, hceq⟩ := List.mem_map.1 hdot
  exact h c hcl hceq



/-- Appending `.pdf` always produces a name that (case-insensitively) ends
with `.pdf`. -/
theorem endsWithPdf_append (f : List Char) : endsWithPdf (f ++ (".pdf").data) = true := by
  unfold endsWithPdf lowercaseL
  rw [List.isSuffixOf_iff_suffix, List.map_append]
  have h : (".pdf").data.map Char.toLower = (".pdf").data := by decide
  rw [h]
  exact List.suffix_append _ _

/-- Whatever the substituted base name, the extension-defaulting step yields
a name ending (case-insensitively) in `.pdf`. -/
theorem endsWithPdf_ensurePdf (f : List Char) : endsWithPdf (ensurePdf f) = true := by
  unfold ensurePdf
  cases h : endsWithPdf f
  · simpa [h] using endsWithPdf_append f
  · simpa [h] using h

/-! ## Claim C9 — filename generation -/

/-- C9: filename generation replaces `{{sn}}` (case-insensitively) by the
zero-padded 1-based sequence number, replaces each `{{field}}` token by the
field's sanitized value (for every value: specials stripped, spaces to
underscores, bounded length), passes literal text through, and appends
`.pdf` exactly when the extension is missing; in particular
`{{sn}}_{{name}}` at index 0 with name `"Jane Doe"` yields
`001_Jane_Doe.pdf`. -/
theorem C9_filename_generation :
    generateFilename ("\x7b\x7bsn\x7d\x7d_\x7b\x7bname\x7d\x7d") [(("name"), ("Jane Doe"))] 0
      = ("001_Jane_Doe.pdf") ∧
    (∀ nm : String,
      generateFilename ("\x7b\x7bsn\x7d\x7d_\x7b\x7bname\x7d\x7d") [(("name"), nm)] 0
        = ("001_") ++ sanitizeFilename nm ++ (".pdf")) ∧
    generateFilename ("\x7b\x7bSN\x7d\x7d_cert") [] 41 = ("042_cert.pdf") ∧
    generateFilename ("out.PDF") [] 0 = ("out.PDF") ∧
    generateFilename ("file") [] 0 = ("file.pdf") ∧
    sanitizeFilename ("Jane  Doe!") = ("Jane_Doe") ∧
    (∀ (pattern : String) (data : List (String × String)) (index : Nat),
      endsWithPdf (generateFilename pattern data index).data = true) := by
  refine ⟨rfl, ?_, rfl, rfl, rfl, rfl, fun pattern data index => endsWithPdf_ensurePdf _⟩
  intro nm
  have key : generateFilename ("\x7b\x7bsn\x7d\x7d_\x7b\x7bname\x7d\x7d") [(("name"), nm)] 0
      = ⟨ensurePdf ('0' :: '0' :: '1' :: '_' ::
          (expandDollar ("\x7b\x7bname\x7d\x7d").data ("001_").data [] (sanitizeL nm.data)
            ++ []))⟩ := rfl
  rw [key, expandDollar_id ("\x7b\x7bname\x7d\x7d").data ("001_").data [] (sanitizeL nm.data)
    (fun c hc => sanChar_ne_dollar (sanitizeL_chars nm.data c hc))]
  have hchars : ∀ c ∈ ('0' :: '0' :: '1' :: '_' :: (sanitizeL nm.data ++ [])),
      Char.toLower c ≠ '.' := by
    intro c hc
    simp only [List.mem_cons, List.append_nil] at hc
    rcases hc with rfl | rfl | rfl | rfl | hc
    · decide
    · decide
    · decide
    · decide
    · exact sanChar_toLower_ne_dot (sanitizeL_chars nm.data c hc)
  have hend := endsWithPdf_eq_false hchars
  have h2 : (("001_") ++ sanitizeFilename nm ++ (".pdf") : String)
      = ⟨'0' :: '0' :: '1' :: '_' :: (sanitizeL nm.data ++ (".pdf").data)⟩ := rfl
  rw [h2]
  unfold ensurePdf
  rw [hend]
  simp


/-! ## Claim C10 — invalid hex colours fall back to black -/

/-- C10: for a field configuration whose colour string does not match the
6-digit-hex regex (optional leading `#`), rendering does not fail:
`hexToRgb` silently returns black, the field is still drawn whenever its
value is non-empty, and the emitted draw command's colour is black. -/
theorem C10_invalid_hex_black (widthOracle : String → ℚ → ℚ) (pageWidth pageHeight : ℚ)
    (data : List (String × String)) (config : FieldConfig)
    (h : hexMatch config.color.data = none) :
    hexToRgb config.color = { r := 0, g := 0, b := 0 } ∧
    (∀ cmd, drawField widthOracle pageWidth pageHeight data config = some cmd →
      cmd.color = { r := 0, g := 0, b := 0 }) ∧
    (getField data config.field ≠ "" →
      ∃ cmd, drawField widthOracle pageWidth pageHeight data config = some cmd) := by
  have h1 : hexToRgb config.color = { r := 0, g := 0, b := 0 } := by
    unfold hexToRgb
    rw [h]
  refine ⟨h1, ?_, ?_⟩
  · intro cmd hcmd
    unfold drawField at hcmd
    by_cases ht : getField data config.field = ""
    · simp [ht] at hcmd
    · simp [ht] at hcmd
      rw [← hcmd]
      exact h1
  · intro ht
    unfold drawField
    simp [ht]

/-! ## Witnesses -/

/-- Witness for `C1_render_semantics`: the `$`-free value `"Amir"` is
inserted verbatim for the matched token. -/
theorem C1_render_semantics_witness :
    (∀ c ∈ ("Amir").data, c ≠ '$') ∧
    renderEmailTemplate ("Hello \x7b\x7bname\x7d\x7d, welcome to \x7b\x7bevent\x7d\x7d")
        [(("name"), ("Amir"))]
      = ("Hello ") ++ ("Amir") ++ (", welcome to \x7b\x7bevent\x7d\x7d") :=
  ⟨by decide, C1_render_semantics.1 ("Amir") (by decide)⟩

/-- Witness for `C4_counter_invariants` at a concrete two-recipient job. -/
theorem C4_counter_invariants_witness :
    samplePendingState.job.totalCount = (samplePendingState.recipients.length : Int) ∧
    (retryFailedRecipientsM samplePendingState).1.job.totalCount
      = samplePendingState.job.totalCount :=
  ⟨by decide, (C4_counter_invariants sampleConfig sampleEmailConfig sampleTemplate
      (fun _ => Except.ok ()) 5 samplePendingState (by decide)).2.2.2.2⟩

/-- Witness for `C5_terminal_status` at a concrete two-recipient job. -/
theorem C5_terminal_status_witness :
    samplePendingState.job.totalCount = (samplePendingState.recipients.length : Int) ∧
    (processCertificateBatchM sampleConfig (fun _ => Except.ok ()) 5
        samplePendingState).1.job.completedAt = some 5 :=
  ⟨by decide, (C5_terminal_status sampleConfig sampleEmailConfig sampleTemplate
      (fun _ => Except.ok ()) 5 samplePendingState (by decide)).2.2.2.1⟩

/-- Witness for `C6_sent_skip_idempotent`: the already-sent recipient of
`sampleState` is returned unchanged by a re-run. -/
theorem C6_sent_skip_idempotent_witness :
    sampleState.recipients.get? 1 = some sampleSent ∧
    sampleSent.emailStatus = EmailStatus.sent ∧
    (processEmailBatchM sampleEmailConfig sampleTemplate (fun _ => Except.ok ()) 7
        sampleState).1.recipients.get? 1 = some sampleSent :=
  ⟨rfl, rfl, (C6_sent_skip_idempotent sampleEmailConfig sampleTemplate
      (fun _ => Except.ok ()) 7 sampleState 1 sampleSent rfl rfl).1⟩

/-- Witness for `C7_retry_failed`: the failed recipient of
`sampleRetryState` is reset to pending with a cleared error. -/
theorem C7_retry_failed_witness :
    (retryFailedRecipientsM sampleRetryState).2 = 1 ∧
    (retryFailedRecipientsM sampleRetryState).1.recipients.get? 0
      = some { sampleFailed with emailStatus := EmailStatus.pending, errorMessage := none } :=
  ⟨by decide, (C7_retry_failed sampleRetryState).2.1 0 sampleFailed rfl (Or.inl rfl)⟩

/-- Witness for `C8_failure_containment`: a failing render records the
error message on the recipient. -/
theorem C8_failure_containment_witness :
    samplePendingState.recipients.get? 0 = some sampleRecipient ∧
    (processCertificateBatchM sampleConfig (fun _ => Except.error ("render failed")) 7
        samplePendingState).1.recipients.get? 0
      = some { sampleRecipient with errorMessage := some ("render failed") } :=
  ⟨rfl, (C8_failure_containment sampleConfig sampleEmailConfig sampleTemplate
      (fun _ => Except.error ("render failed")) 7 samplePendingState 0 sampleRecipient
      ("render failed") rfl).2.1 rfl⟩

/-- Witness for `C10_invalid_hex_black`: the colour `"red"` does not match
the hex regex and converts to black. -/
theorem C10_invalid_hex_black_witness :
    hexMatch sampleBadColorField.color.data = none ∧
    hexToRgb sampleBadColorField.color = { r := 0, g := 0, b := 0 } :=
  ⟨rfl, (C10_invalid_hex_black (fun _ _ => 0) 800 600 [(("name"), ("Jane"))]
      sampleBadColorField rfl).1⟩

end CertiFlow
